import Mathlib

/-!
Verification development for the optimistic-concurrency review-mutation engine
of the Studio repository (`src/server/services/githubReviews.ts` and
`src/server/routes/reviews.ts`).

The TypeScript source is shallowly embedded:

* JavaScript numbers are modelled as exact rationals (`ℚ`), with the
  infinities of the `Number` string conversion represented explicitly
  (`JsNum`); floating-point rounding and overflow are outside the model.
* `process.env` is modelled by the `Env` structure of `Option String` fields.
* HTTP responses are modelled by structures carrying the status code and the
  payload fields the code reads; the base64 transport encoding is a bijection
  (`Buffer.from(x).toString` inverts it), so payload content is modelled
  directly as the decoded UTF-8 text.
* `JSON.parse` is modelled by the executable recursive-descent parser
  `jsonParse` below (decimal numbers, strings with escapes, arrays, objects);
  fallible operations return `Option` / `Except`.
-/

/-- Error taxonomy of the service, mirroring the classes in
`githubReviews.ts`: `GitHubConfigError`, `GitHubConflictError`, and the plain
`Error` used for all other store/transport/data failures (the spec's
`StoreError`). -/
inductive GhError where
  | configError (msg : String)
  | conflictError (msg : String)
  | otherError (msg : String)
deriving DecidableEq

/-- Mirrors the `error instanceof GitHubConflictError` test in the retry loop. -/
def GhError.isConflict : GhError → Bool
  | .conflictError _ => true
  | _ => false

/-- A review item, mirroring the object literal built in `addReview`
(`src/server/routes/reviews.ts`): id, text, creation timestamp, avatar URI and
star rating. -/
structure Review where
  id : String
  text : String
  createdAt : String
  avatar : String
  stars : ℚ
deriving DecidableEq

/-- JSON values, the target of the model of `JSON.parse`. -/
inductive Json where
  | null
  | bool (b : Bool)
  | num (q : ℚ)
  | str (s : String)
  | arr (elems : List Json)
  | obj (fields : List (String × Json))

/-- JSON whitespace characters. -/
def isJsonWs (c : Char) : Bool :=
  c = ' ' || c = '\n' || c = '\t' || c = '\r'

/-- Drop leading JSON whitespace. -/
def skipWs : List Char → List Char
  | [] => []
  | c :: cs => if isJsonWs c then skipWs cs else c :: cs

/-- Numeric value of a decimal digit, if the character is one. -/
def digitVal (c : Char) : Option Nat :=
  if c.isDigit then some (c.toNat - 48) else none

/-- Numeric value of a hexadecimal digit, if the character is one. -/
def hexVal (c : Char) : Option Nat :=
  if c.isDigit then some (c.toNat - 48)
  else if 'a' ≤ c && c ≤ 'f' then some (c.toNat - 87)
  else if 'A' ≤ c && c ≤ 'F' then some (c.toNat - 55)
  else none

/-- Consume a maximal run of decimal digits, returning the accumulated value,
the number of digits consumed, and the rest of the input. -/
def takeDigits (acc : Nat) (count : Nat) : List Char → Nat × Nat × List Char
  | [] => (acc, count, [])
  | c :: cs =>
    match digitVal c with
    | some d => takeDigits (acc * 10 + d) (count + 1) cs
    | none => (acc, count, c :: cs)

/-- Body of a JSON string literal after the opening quote: consume characters
and escape sequences up to the closing quote.  Raw control characters are
rejected, as by `JSON.parse`. -/
def parseStringBody (acc : String) : List Char → Option (String × List Char)
  | [] => none
  | c :: cs =>
    if c = '"' then some (acc, cs)
    else if c = '\\' then
      match cs with
      | [] => none
      | e :: cs' =>
        if e = '"' then parseStringBody (acc.push '"') cs'
        else if e = '\\' then parseStringBody (acc.push '\\') cs'
        else if e = '/' then parseStringBody (acc.push '/') cs'
        else if e = 'b' then parseStringBody (acc.push (Char.ofNat 8)) cs'
        else if e = 'f' then parseStringBody (acc.push (Char.ofNat 12)) cs'
        else if e = 'n' then parseStringBody (acc.push '\n') cs'
        else if e = 'r' then parseStringBody (acc.push '\r') cs'
        else if e = 't' then parseStringBody (acc.push '\t') cs'
        else if e = 'u' then
          match cs' with
          | h1 :: h2 :: h3 :: h4 :: cs'' =>
            match hexVal h1, hexVal h2, hexVal h3, hexVal h4 with
            | some a, some b, some c2, some d =>
              parseStringBody (acc.push (Char.ofNat (((a * 16 + b) * 16 + c2) * 16 + d))) cs''
            | _, _, _, _ => none
          | _ => none
        else none
    else if c.toNat < 32 then none
    else parseStringBody (acc.push c) cs
termination_by cs => cs.length
decreasing_by all_goals simp_arith [List.length]

/-- Powers of ten, for decimal fraction and exponent values. -/
def pow10 (k : Nat) : Nat := 10 ^ k

/-- The rational value of a parsed decimal literal: sign, integer digits,
fraction digits with their count, and a signed power-of-ten exponent.
Expressed through `mkRat` and integer arithmetic so that concrete literals
evaluate inside the kernel. -/
def decimalValue (neg : Bool) (ival fval fcount : Nat) (eneg : Bool) (ev : Nat) : ℚ :=
  let num : Int := (ival * pow10 fcount + fval : Nat)
  let num : Int := if neg then -num else num
  if eneg then mkRat num (pow10 fcount * pow10 ev)
  else mkRat (num * (pow10 ev : Nat)) (pow10 fcount)

/-- JSON number literal: optional minus sign, integer part, optional fraction,
optional exponent, following the `JSON.parse` grammar. -/
def parseNumber (cs : List Char) : Option (ℚ × List Char) :=
  let (neg, cs1) := match cs with
    | '-' :: r => (true, r)
    | _ => (false, cs)
  let (ival, icount, cs2) := takeDigits 0 0 cs1
  let leadingZero : Bool := match cs1 with
    | '0' :: d :: _ => d.isDigit
    | _ => false
  if icount = 0 ∨ leadingZero = true then none
  else
    let (fval, fcount, cs3) := match cs2 with
      | '.' :: r =>
        let (v, k, rest) := takeDigits 0 0 r
        (v, k, rest)
      | _ => (0, 0, cs2)
    if cs2 ≠ cs3 ∧ fcount = 0 then none
    else
      match cs3 with
      | 'e' :: r => parseNumberExp neg ival fval fcount r
      | 'E' :: r => parseNumberExp neg ival fval fcount r
      | _ => some (decimalValue neg ival fval fcount false 0, cs3)
where
  /-- Exponent part after the `e`. -/
  parseNumberExp (neg : Bool) (ival fval fcount : Nat) (cs : List Char) :
      Option (ℚ × List Char) :=
    let (eneg, cs1) := match cs with
      | '-' :: r => (true, r)
      | '+' :: r => (false, r)
      | _ => (false, cs)
    let (eval2, ecount, cs2) := takeDigits 0 0 cs1
    if ecount = 0 then none
    else some (decimalValue neg ival fval fcount eneg eval2, cs2)

mutual

/-- Recursive-descent model of `JSON.parse` for a single value; `fuel`
strictly decreases on every recursive call and is chosen large enough at the
top level (`jsonParse`). -/
def parseValue : Nat → List Char → Option (Json × List Char)
  | 0, _ => none
  | Nat.succ f, cs =>
    match skipWs cs with
    | 'n' :: 'u' :: 'l' :: 'l' :: rest => some (.null, rest)
    | 't' :: 'r' :: 'u' :: 'e' :: rest => some (.bool true, rest)
    | 'f' :: 'a' :: 'l' :: 's' :: 'e' :: rest => some (.bool false, rest)
    | '"' :: rest =>
      match parseStringBody "" rest with
      | some (s, r) => some (.str s, r)
      | none => none
    | '[' :: rest =>
      (match skipWs rest with
       | ']' :: r2 => some (.arr [], r2)
       | r1 =>
         match parseElems f r1 with
         | some (vs, r2) => some (.arr vs, r2)
         | none => none)
    | '{' :: rest =>
      (match skipWs rest with
       | '}' :: r2 => some (.obj [], r2)
       | r1 =>
         match parseMembers f r1 with
         | some (ms, r2) => some (.obj ms, r2)
         | none => none)
    | cs0 =>
      match parseNumber cs0 with
      | some (q, r) => some (.num q, r)
      | none => none

/-- Comma-separated array elements up to the closing bracket. -/
def parseElems : Nat → List Char → Option (List Json × List Char)
  | 0, _ => none
  | Nat.succ f, cs =>
    match parseValue f cs with
    | none => none
    | some (v, r) =>
      match skipWs r with
      | ']' :: r2 => some ([v], r2)
      | ',' :: r2 =>
        match parseElems f r2 with
        | some (vs, r3) => some (v :: vs, r3)
        | none => none
      | _ => none

/-- Comma-separated object members up to the closing brace. -/
def parseMembers : Nat → List Char → Option (List (String × Json) × List Char)
  | 0, _ => none
  | Nat.succ f, cs =>
    match skipWs cs with
    | '"' :: rest =>
      match parseStringBody "" rest with
      | none => none
      | some (k, r) =>
        match skipWs r with
        | ':' :: r2 =>
          (match parseValue f r2 with
           | none => none
           | some (v, r3) =>
             match skipWs r3 with
             | '}' :: r4 => some ([(k, v)], r4)
             | ',' :: r4 =>
               match parseMembers f r4 with
               | some (ms, r5) => some ((k, v) :: ms, r5)
               | none => none
             | _ => none)
        | _ => none
    | _ => none

end

/-- Model of `JSON.parse`: `none` means the parse throws a `SyntaxError`. -/
def jsonParse (s : String) : Option Json :=
  match parseValue (2 * s.length + 4) s.data with
  | some (v, rest) => if skipWs rest = [] then some v else none
  | none => none

/-- The environment variables read by `githubReviews.ts`; each field models
one `process.env` entry (`none` = unset). -/
structure Env where
  GITHUB_TOKEN : Option String := none
  GITHUB_OWNER : Option String := none
  GITHUB_REPO : Option String := none
  GITHUB_FILE_PATH : Option String := none
  GITHUB_BRANCH : Option String := none
  GITHUB_COMMIT_MESSAGE : Option String := none
  GIT_COMMITTER_NAME : Option String := none
  GIT_COMMITTER_EMAIL : Option String := none
  GITHUB_MAX_RETRIES : Option String := none
  GITHUB_RETRY_LIMIT : Option String := none
  MAX_RETRIES : Option String := none

/-- JavaScript whitespace, for the trimming performed by `String.prototype.trim`
and by the `Number` conversion: the ECMAScript WhiteSpace set (TAB, VT, FF,
SP, NBSP, ZWNBSP/BOM and the Unicode space separators U+1680, U+2000-U+200A,
U+202F, U+205F, U+3000) together with the LineTerminator set (LF, CR, LS,
PS). -/
def jsWsChar (c : Char) : Bool :=
  c = ' ' || c = '\t' || c = '\n' || c = '\r' ||
    c = Char.ofNat 11 || c = Char.ofNat 12 ||
    c = Char.ofNat 160 || c = Char.ofNat 5760 ||
    (Char.ofNat 8192 ≤ c && c ≤ Char.ofNat 8202) ||
    c = Char.ofNat 8232 || c = Char.ofNat 8233 ||
    c = Char.ofNat 8239 || c = Char.ofNat 8287 ||
    c = Char.ofNat 12288 || c = Char.ofNat 65279

/-- Model of JavaScript string trimming (`.trim()`), by character lists so
that concrete strings evaluate inside the kernel. -/
def jsTrim (s : String) : String :=
  ⟨((s.data.dropWhile jsWsChar).reverse.dropWhile jsWsChar).reverse⟩

/-- Finite-or-infinite JavaScript number values, for the results of the
`Number(string)` conversion (`NaN` is represented as `none` at use sites).
Finite values are exact rationals; floating-point rounding and overflow are
outside the model. -/
inductive JsNum where
  | finite (q : ℚ)
  | inf
  | negInf
deriving DecidableEq

/-- Numeric value of a binary digit, if the character is one. -/
def binVal (c : Char) : Option Nat :=
  if c = '0' then some 0 else if c = '1' then some 1 else none

/-- Numeric value of an octal digit, if the character is one. -/
def octVal (c : Char) : Option Nat :=
  if '0' ≤ c && c ≤ '7' then some (c.toNat - 48) else none

/-- Consume a maximal run of digits of a given radix. -/
def takeRadixDigits (dv : Char → Option Nat) (radix : Nat) (acc count : Nat) :
    List Char → Nat × Nat × List Char
  | [] => (acc, count, [])
  | c :: cs =>
    match dv c with
    | some d => takeRadixDigits dv radix (acc * radix + d) (count + 1) cs
    | none => (acc, count, c :: cs)

/-- A radix-prefixed integer literal after its `0x`/`0b`/`0o` prefix: at
least one digit, running to the end of the string; no sign, fraction or
exponent (as in the JavaScript `Number` conversion). -/
def jsRadixLiteral (dv : Char → Option Nat) (radix : Nat) (cs : List Char) :
    Option JsNum :=
  let (v, n, rest) := takeRadixDigits dv radix 0 0 cs
  if n = 0 ∨ rest ≠ [] then none else some (.finite (v : ℚ))

/-- An optionally signed `Infinity` or decimal literal (optional fraction and
exponent), consuming the whole string: the non-radix forms of the `Number`
string conversion. -/
def jsDecimalLiteral (cs : List Char) : Option JsNum :=
  let (neg, cs1) := match cs with
    | '-' :: r => (true, r)
    | '+' :: r => (false, r)
    | _ => (false, cs)
  match cs1 with
  | 'I' :: 'n' :: 'f' :: 'i' :: 'n' :: 'i' :: 't' :: 'y' :: rest =>
    if rest = [] then some (if neg then .negInf else .inf) else none
  | _ =>
    let (ival, icount, cs2) := takeDigits 0 0 cs1
    let (fval, fcount, cs3) := match cs2 with
      | '.' :: r =>
        let (v, k, rest) := takeDigits 0 0 r
        (v, k, rest)
      | _ => (0, 0, cs2)
    if icount = 0 ∧ fcount = 0 then none
    else
      match cs3 with
      | [] => some (.finite (decimalValue neg ival fval fcount false 0))
      | 'e' :: r => jsDecimalExp neg ival fval fcount r
      | 'E' :: r => jsDecimalExp neg ival fval fcount r
      | _ => none
where
  /-- Exponent part; the whole remaining input must be consumed. -/
  jsDecimalExp (neg : Bool) (ival fval fcount : Nat) (cs : List Char) : Option JsNum :=
    let (eneg, cs1) := match cs with
      | '-' :: r => (true, r)
      | '+' :: r => (false, r)
      | _ => (false, cs)
    let (eval2, ecount, cs2) := takeDigits 0 0 cs1
    if ecount = 0 ∨ cs2 ≠ [] then none
    else some (.finite (decimalValue neg ival fval fcount eneg eval2))

/-- Model of the JavaScript `Number(string)` conversion: whitespace is
trimmed; the empty string converts to `0`; an (unsigned) `0x`/`0b`/`0o`
radix integer literal, an optionally signed `Infinity`, or an optionally
signed decimal literal with optional fraction and exponent converts to its
value; anything else is `NaN` (`none`).  Finite values are kept exact;
floating-point rounding and overflow are outside the model. -/
def jsNumber (s : String) : Option JsNum :=
  let t := jsTrim s
  if t = "" then some (.finite 0)
  else
    match t.data with
    | '0' :: x :: rest =>
      if x = 'x' ∨ x = 'X' then jsRadixLiteral hexVal 16 rest
      else if x = 'b' ∨ x = 'B' then jsRadixLiteral binVal 2 rest
      else if x = 'o' ∨ x = 'O' then jsRadixLiteral octVal 8 rest
      else jsDecimalLiteral t.data
    | _ => jsDecimalLiteral t.data

/-- `DEFAULT_MAX_RETRIES` from `githubReviews.ts`. -/
def DEFAULT_MAX_RETRIES : ℚ := 5

/-- The `raw` value of `getMaxRetries()`: the chain of `??` picks the first
*defined* of the three environment variables (JavaScript `??` skips only
`undefined`/`null`, not the empty string). -/
def firstDefinedRetrySetting (env : Env) : Option String :=
  (env.GITHUB_MAX_RETRIES).orElse fun _ =>
    (env.GITHUB_RETRY_LIMIT).orElse fun _ => env.MAX_RETRIES

/-- Model of `getMaxRetries()`: `parsed` is `Number(raw)` when `raw` is
truthy; the default is used when `parsed` is falsy (`undefined`, `0`, `NaN`),
`NaN`, or `< 1`.  `-Infinity` is `< 1` and falls back; `Infinity` passes
every check and is returned as-is, so the effective bound can be
unbounded. -/
def getMaxRetries (env : Env) : JsNum :=
  match firstDefinedRetrySetting env with
  | none => .finite DEFAULT_MAX_RETRIES
  | some s =>
    if s = "" then .finite DEFAULT_MAX_RETRIES
    else
      match jsNumber s with
      | none => .finite DEFAULT_MAX_RETRIES
      | some (.finite q) => if q < 1 then .finite DEFAULT_MAX_RETRIES else .finite q
      | some .inf => .inf
      | some .negInf => .finite DEFAULT_MAX_RETRIES

/-- JavaScript falsiness of an optional string (`undefined` or `""`). -/
def strFalsy : Option String → Bool
  | none => true
  | some s => s = ""

/-- The validated configuration object returned by `getConfig()`. -/
structure GhConfig where
  token : String
  owner : String
  repo : String
  filePath : String
  branch : String
  commitMessage : String
  committerName : Option String
  committerEmail : Option String
deriving DecidableEq

/-- Model of the `/^\//` replacement in `getConfig`: strip one leading slash. -/
def stripLeadingSlash (s : String) : String :=
  match s.data with
  | '/' :: rest => ⟨rest⟩
  | _ => s

/-- Model of `getConfig()`: eager validation of `GITHUB_TOKEN`,
`GITHUB_OWNER`, `GITHUB_REPO` (a `GitHubConfigError` on the first falsy one),
defaulting of file path, branch and commit message. -/
def getConfig (env : Env) : Except GhError GhConfig :=
  if strFalsy env.GITHUB_TOKEN then
    .error (.configError "Missing GITHUB_TOKEN environment variable")
  else if strFalsy env.GITHUB_OWNER then
    .error (.configError "Missing GITHUB_OWNER environment variable")
  else if strFalsy env.GITHUB_REPO then
    .error (.configError "Missing GITHUB_REPO environment variable")
  else
    .ok
      { token := env.GITHUB_TOKEN.getD ""
        owner := env.GITHUB_OWNER.getD ""
        repo := env.GITHUB_REPO.getD ""
        filePath := stripLeadingSlash (env.GITHUB_FILE_PATH.getD "reviews.json")
        branch := env.GITHUB_BRANCH.getD "main"
        commitMessage := env.GITHUB_COMMIT_MESSAGE.getD "chore: update reviews"
        committerName := env.GIT_COMMITTER_NAME
        committerEmail := env.GIT_COMMITTER_EMAIL }

/-- The `response.ok` predicate of the fetch API: status in `[200, 300)`. -/
def respOk (status : Nat) : Bool :=
  200 ≤ status && status < 300

/-- The parts of the HTTP response to the contents GET that
`fetchReviewsFromGitHub` reads.  `content` is the payload's file content
after base64 decoding (the transport encoding is a bijection and is not
modelled), `sha` is the payload's version token, `bodyText` is the raw body
used in the diagnostic of a failed response. -/
structure FetchResp where
  status : Nat
  bodyText : String := ""
  content : String := ""
  sha : String := ""

/-- Model of `fetchReviewsFromGitHub()`: validate configuration, then branch
on the response: 404 means an empty collection with no version token; any
other non-ok status is a store failure; otherwise decode, trim, treat a blank
file as the empty collection, and `JSON.parse` the rest.  The `as Review[]`
cast in the source performs no validation, so the parsed JSON value is
returned as-is (`Json`), whatever its shape. -/
def fetchReviewsFromGitHub (env : Env) (resp : FetchResp) :
    Except GhError (Json × Option String) :=
  match getConfig env with
  | .error e => .error e
  | .ok _config =>
    if resp.status = 404 then .ok (Json.arr [], none)
    else if !respOk resp.status then
      .error (.otherError
        ("Failed to fetch reviews from GitHub: " ++ toString resp.status ++ " " ++ resp.bodyText))
    else
      let rawContent := jsTrim resp.content
      if rawContent = "" then .ok (Json.arr [], some resp.sha)
      else
        match jsonParse rawContent with
        | some parsed => .ok (parsed, some resp.sha)
        | none => .error (.otherError "reviews.json in GitHub repository contains invalid JSON")

/-- The parts of the HTTP response to the contents PUT that
`persistReviewsToGitHub` reads: status, raw body for diagnostics, and the
optional `content.sha` / `commit.sha` fields of the update payload. -/
structure PutResp where
  status : Nat
  bodyText : String := ""
  contentSha : Option String := none
  commitSha : Option String := none

/-- The request body assembled by `persistReviewsToGitHub` (lines 143-158):
commit message, serialized content (the serialization itself is abstracted to
the review list), branch, the version token included only when truthy, and
the committer included only when both name and email are truthy. -/
structure PutBody where
  message : String
  content : List Review
  branch : String
  sha : Option String
  committer : Option (String × String)
deriving DecidableEq

/-- Assembles the PUT request body from the configuration, reviews and
optional version token, mirroring the conditional `body.sha` and
`body.committer` assignments. -/
def buildPutBody (config : GhConfig) (reviews : List Review) (sha : Option String) : PutBody :=
  { message := config.commitMessage
    content := reviews
    branch := config.branch
    sha := match sha with
      | some s => if s = "" then none else some s
      | none => none
    committer := match config.committerName, config.committerEmail with
      | some n, some e => if n = "" ∨ e = "" then none else some (n, e)
      | _, _ => none }

/-- Model of `persistReviewsToGitHub()`: validate configuration, build the
conditioned update, then branch on the response: 409 is a
`GitHubConflictError`; any other non-ok status is a store failure; on success
the new version token is `content.sha` falling back to `commit.sha`. -/
def persistReviewsToGitHub (env : Env) (reviews : List Review) (sha : Option String)
    (resp : PutResp) : Except GhError (Option String) :=
  match getConfig env with
  | .error e => .error e
  | .ok config =>
    let _body := buildPutBody config reviews sha
    if resp.status = 409 then .error (.conflictError "GitHub file changed during update")
    else if !respOk resp.status then
      .error (.otherError
        ("Failed to persist reviews to GitHub: " ++ toString resp.status ++ " " ++ resp.bodyText))
    else .ok (resp.contentSha.orElse fun _ => resp.commitSha)

/-- Modelled from the spec: the remote versioned store itself (the GitHub
contents API) is not part of the repository; its compare-and-swap behaviour
is taken from spec section 3 invariants (a) and (b) and the section 6 wire
contract.  `doc` is the stored collection with its current version token
(`none` = the remote object does not exist); `counter` supplies fresh tokens
and is strictly greater than every token ever stored. -/
structure Store where
  doc : Option (List Review × Nat)
  counter : Nat
deriving DecidableEq

/-- The store with no remote object (the first-write case). -/
def emptyStore : Store := ⟨none, 0⟩

/-- Modelled from the spec: a read returns the stored collection and its
version token, or an empty collection and no token when the object does not
exist (composite of the store's GET with the client's 404 handling). -/
def storeFetch (s : Store) : List Review × Option Nat :=
  match s.doc with
  | none => ([], none)
  | some (c, v) => (c, some v)

/-- Result of a conditioned write at the store. -/
inductive StoreWriteRes where
  | accepted (s : Store)
  | conflict
deriving DecidableEq

/-- Modelled from the spec: a conditioned write is accepted iff the supplied
token matches the store's current token, or no token is supplied and no
object exists; acceptance installs the new collection under a fresh token.
Every rejection is a version conflict (HTTP 409). -/
def storeWrite (s : Store) (next : List Review) (tok : Option Nat) : StoreWriteRes :=
  match s.doc, tok with
  | none, none => .accepted ⟨some (next, s.counter), s.counter + 1⟩
  | some (_, v), some t =>
    if t = v then .accepted ⟨some (next, s.counter), s.counter + 1⟩ else .conflict
  | _, _ => .conflict

/-- Outcome of one write attempt as seen by the retry loop. -/
inductive WriteOutcome where
  | accepted (newSha : Option String)
  | failed (e : GhError)
deriving DecidableEq

/-- The environment a single `mutateReviewsWithRetry` invocation runs
against: what `fetchReviewsFromGitHub` returns on the n-th attempt and how
the store answers the n-th write.  Indexing by the attempt number lets the
remote state differ between attempts (concurrent writers). -/
structure EngineEnv where
  fetchAt : Nat → Except GhError (List Review × Option String)
  writeAt : Nat → List Review → Option String → WriteOutcome

/-- Observable events of one engine invocation, recording exactly the values
received from and passed to the remote operations. -/
inductive EngineEvent where
  | fetched (reviews : List Review) (sha : Option String)
  | fetchFailed (e : GhError)
  | wrote (next : List Review) (sha : Option String) (outcome : WriteOutcome)
deriving DecidableEq

/-- The final `throw` of the retry loop: the captured error when one is an
`Error` instance, else the generic exhaustion error (mirrors the
`lastError instanceof Error` test). -/
def exhaustError (lastError : Option GhError) : GhError :=
  match lastError with
  | some e => e
  | none => .otherError "Exceeded retry attempts when updating reviews"

/-- Model of the retry loop of `mutateReviewsWithRetry` (lines 185-208),
with `attempt` the loop counter and `lastError` the captured error.  Each
iteration increments the counter, fetches (a fetch failure propagates
uncaught), applies the mutator to the fetched snapshot (the defensive copy
`[...reviews]` is the identity here and the pure mutator application is
written inline), and writes; on a
`GitHubConflictError` with attempts remaining it continues, any other write
failure (or a conflict on the last attempt) propagates.  After the loop the
captured error, or the generic exhaustion error, is thrown
(`exhaustError` selects between the two, mirroring the
`lastError instanceof Error` test).  `retries` keeps the JavaScript number
type (`ℚ`).  The returned trace records the remote interactions of the
invocation. -/
def mutateGo {T : Type} (mutator : List Review → List Review × T) (env : EngineEnv)
    (retries : ℚ) (attempt : Nat) (lastError : Option GhError) :
    Except GhError T × List EngineEvent :=
  if _h : (attempt : ℚ) < retries then
    match env.fetchAt (attempt + 1) with
    | .error e => (.error e, [.fetchFailed e])
    | .ok (reviews, sha) =>
      match env.writeAt (attempt + 1) (mutator reviews).1 sha with
      | .accepted ns =>
        (.ok (mutator reviews).2,
         [.fetched reviews sha, .wrote (mutator reviews).1 sha (.accepted ns)])
      | .failed e =>
        if h2 : e.isConflict = true ∧ ((attempt + 1 : Nat) : ℚ) < retries then
          let rec0 := mutateGo mutator env retries (attempt + 1) (some e)
          (rec0.1, .fetched reviews sha :: .wrote (mutator reviews).1 sha (.failed e) :: rec0.2)
        else
          (.error e, [.fetched reviews sha, .wrote (mutator reviews).1 sha (.failed e)])
  else
    (.error (exhaustError lastError), [])
termination_by ⌈retries⌉.toNat - attempt
decreasing_by
  have h3 : ((attempt : ℤ) + 1) < ⌈retries⌉ := by
    rw [Int.lt_ceil]
    push_cast
    exact_mod_cast h2.2
  omega

/-- Model of `mutateReviewsWithRetry(mutator, retries)`: the loop starting at
`attempt = 0` with no captured error. -/
def mutateReviewsWithRetry {T : Type} (mutator : List Review → List Review × T)
    (env : EngineEnv) (retries : ℚ) : Except GhError T × List EngineEvent :=
  mutateGo mutator env retries 0 none

/-- An event that begins a read/write cycle (one loop iteration). -/
def isAttemptStart : EngineEvent → Bool
  | .fetched _ _ => true
  | .fetchFailed _ => true
  | .wrote _ _ _ => false

/-- Number of read/write cycles recorded in a trace. -/
def attemptCount (tr : List EngineEvent) : Nat :=
  (tr.filter isAttemptStart).length

/-- State of one in-flight `mutateReviewsWithRetry` invocation, at its two
suspension points: `ready` before the fetch of the next iteration (carrying
the loop counter and captured error), `pending` between fetch and write
(carrying the incremented counter and the values about to be written),
`done` after a successful write, `failed` after a propagated error. -/
inductive PState (T : Type) where
  | ready (attempt : Nat) (lastError : Option GhError)
  | pending (attempt : Nat) (next : List Review) (result : T) (tok : Option Nat)
  | done (result : T)
  | failed (e : GhError)

/-- Point update of a process map. -/
def updateProc {T : Type} (f : Nat → PState T) (i : Nat) (v : PState T) :
    Nat → PState T :=
  fun j => if j = i then v else f j

/-- Global state of an interleaved execution: the shared store, the state of
every invocation, and the ids of the invocations whose writes the store has
accepted, in acceptance order. -/
structure GState (T : Type) where
  store : Store
  procs : Nat → PState T
  accepted : List Nat

/-- Initial global state: empty store, every invocation at the top of its
loop with no captured error. -/
def initGState (T : Type) : GState T :=
  { store := emptyStore, procs := fun _ => .ready 0 none, accepted := [] }

/-- One atomic step of invocation `i`: a `ready` process performs the
loop-bound check, the fetch and the (pure, local) transform; a `pending`
process performs the conditioned write, retrying or failing on conflict
exactly as the retry loop does.  `done` and `failed` processes do nothing. -/
def stepProc {T : Type} (transforms : Nat → List Review → List Review × T)
    (retries : ℚ) (gs : GState T) (i : Nat) : GState T :=
  match gs.procs i with
  | .ready attempt lastErr =>
    if (attempt : ℚ) < retries then
      let fr := storeFetch gs.store
      let nr := transforms i fr.1
      { gs with procs := updateProc gs.procs i (.pending (attempt + 1) nr.1 nr.2 fr.2) }
    else
      { gs with procs := updateProc gs.procs i (.failed (match lastErr with
          | some e => e
          | none => .otherError "Exceeded retry attempts when updating reviews")) }
  | .pending attempt next result tok =>
    match storeWrite gs.store next tok with
    | .accepted s' =>
      { store := s'
        procs := updateProc gs.procs i (.done result)
        accepted := gs.accepted ++ [i] }
    | .conflict =>
      let e := GhError.conflictError "GitHub file changed during update"
      if (attempt : ℚ) < retries then
        { gs with procs := updateProc gs.procs i (.ready attempt (some e)) }
      else
        { gs with procs := updateProc gs.procs i (.failed e) }
  | .done _ => gs
  | .failed _ => gs

/-- Run a schedule (an arbitrary interleaving of invocation ids). -/
def execSched {T : Type} (transforms : Nat → List Review → List Review × T)
    (retries : ℚ) (sched : List Nat) (gs : GState T) : GState T :=
  sched.foldl (stepProc transforms retries) gs

/-- The collection currently persisted at the store (empty when the remote
object does not exist). -/
def storeContent (s : Store) : List Review :=
  match s.doc with
  | none => []
  | some (c, _) => c

/-- Serial application of the transforms named by `log`, in order, starting
from the empty collection. -/
def applyLog {T : Type} (transforms : Nat → List Review → List Review × T)
    (log : List Nat) : List Review :=
  log.foldl (fun c i => (transforms i c).1) []

/-- JavaScript `a || d` for an optional string (`undefined` and `""` are
falsy). -/
def jsOrString (a : Option String) (d : String) : String :=
  match a with
  | some s => if s = "" then d else s
  | none => d

/-- JavaScript `a || d` for an optional number (`undefined` and `0` are
falsy). -/
def jsOrRat (a : Option ℚ) (d : ℚ) : ℚ :=
  match a with
  | some q => if q = 0 then d else q
  | none => d

/-- The fixed placeholder avatar of `addReview`. -/
def placeholderAvatar : String :=
  "https://api.builder.io/api/v1/image/assets/TEMP/50539832474100cc93c13a30455d91939b986e3b?width=124"

/-- The mutator passed to `mutateReviewsWithRetry` by `addReview`
(`src/server/routes/reviews.ts` lines 53-70): appends a new review built from
the request, with the trimmed text, the placeholder avatar when `avatar` is
falsy, and 5 stars when `stars` is falsy.  `idv` and `createdAtv` stand for
the nondeterministic `Date.now()`/`Math.random()` id and the ISO timestamp. -/
def addReviewMutator (idv createdAtv : String) (text : String)
    (avatar : Option String) (stars : Option ℚ) :
    List Review → List Review × Review :=
  fun current =>
    let newReview : Review :=
      { id := idv
        text := jsTrim text
        createdAt := createdAtv
        avatar := jsOrString avatar placeholderAvatar
        stars := jsOrRat stars 5 }
    (current ++ [newReview], newReview)

/-- Modelled from the spec: an `Item` serialized into the document is a JSON
object with string identity key, display text, creation timestamp and avatar
reference and a numeric rating (spec section 3).  Used only to state what
"valid serialized Collection data" means in the spec's words. -/
def specIsItemJson : Json → Bool
  | .obj fields =>
    let isStr : String → Bool := fun k =>
      match fields.lookup k with
      | some (.str _) => true
      | _ => false
    isStr "id" && isStr "text" && isStr "createdAt" && isStr "avatar" &&
      (match fields.lookup "stars" with
       | some (.num _) => true
       | _ => false)
  | _ => false

/-- Modelled from the spec: "valid serialized Collection data" is a JSON
array of serialized Items (spec sections 3 and 4.1).  This formalizes the
claim's hypothesis, for comparison against what the code actually checks. -/
def specValidCollectionData (s : String) : Bool :=
  match jsonParse s with
  | some (.arr elems) => elems.all specIsItemJson
  | _ => false

/-- Modelled from the spec: the first *non-empty* of the three recognized
retry settings, as the claim reads the configuration (spec section 6). -/
def specFirstNonEmpty (env : Env) : Option String :=
  match env.GITHUB_MAX_RETRIES with
  | some s =>
    if s ≠ "" then some s
    else match env.GITHUB_RETRY_LIMIT with
      | some t => if t ≠ "" then some t else (env.MAX_RETRIES).filter (· ≠ "")
      | none => (env.MAX_RETRIES).filter (· ≠ "")
  | none =>
    match env.GITHUB_RETRY_LIMIT with
    | some t => if t ≠ "" then some t else (env.MAX_RETRIES).filter (· ≠ "")
    | none => (env.MAX_RETRIES).filter (· ≠ "")

/-- Modelled from the spec: the effective attempt bound as the claim states
it — the first non-empty setting wins, and an absent, non-numeric or
non-positive winner falls back to the default 5. -/
def specMaxRetries (env : Env) : JsNum :=
  match specFirstNonEmpty env with
  | none => .finite DEFAULT_MAX_RETRIES
  | some s =>
    match jsNumber s with
    | none => .finite DEFAULT_MAX_RETRIES
    | some (.finite q) => if q ≤ 0 then .finite DEFAULT_MAX_RETRIES else .finite q
    | some .inf => .inf
    | some .negInf => .finite DEFAULT_MAX_RETRIES

/-- A configuration with the three required settings present. -/
def envValid : Env :=
  { GITHUB_TOKEN := some "t", GITHUB_OWNER := some "o", GITHUB_REPO := some "r" }

/-- The configuration object `getConfig` produces for `envValid`. -/
def cfgValid : GhConfig :=
  { token := "t", owner := "o", repo := "r", filePath := "reviews.json", branch := "main"
    commitMessage := "chore: update reviews", committerName := none, committerEmail := none }

/-- A configuration with every setting absent. -/
def envMissingConfig : Env := {}

/-- Retry configuration where the first recognized setting is set but empty
and the second is `"3"`. -/
def envEmptyFirstRetrySetting : Env :=
  { GITHUB_MAX_RETRIES := some "", GITHUB_RETRY_LIMIT := some "3" }

/-- Retry configuration with a single valid setting. -/
def envRetrySeven : Env := { GITHUB_MAX_RETRIES := some "7" }

/-- Retry configuration whose setting is the string `Infinity`. -/
def envRetryInfinity : Env := { GITHUB_MAX_RETRIES := some "Infinity" }

/-- The effective attempt bound is never below 1: every fallthrough returns
the default 5, the non-default finite branch requires `¬ parsed < 1`, and
the only other outcome is the unbounded `Infinity`. -/
theorem one_le_getMaxRetries (env : Env) :
    getMaxRetries env = JsNum.inf ∨
    ∃ q, getMaxRetries env = JsNum.finite q ∧ 1 ≤ q := by
  unfold getMaxRetries
  cases hfd : firstDefinedRetrySetting env with
  | none => exact Or.inr ⟨DEFAULT_MAX_RETRIES, rfl, by norm_num [DEFAULT_MAX_RETRIES]⟩
  | some s =>
    by_cases hse : s = ""
    · simp only [if_pos hse]
      exact Or.inr ⟨DEFAULT_MAX_RETRIES, rfl, by norm_num [DEFAULT_MAX_RETRIES]⟩
    · simp only [if_neg hse]
      cases hn : jsNumber s with
      | none => exact Or.inr ⟨DEFAULT_MAX_RETRIES, rfl, by norm_num [DEFAULT_MAX_RETRIES]⟩
      | some jn =>
        cases jn with
        | finite q =>
          by_cases hq : q < 1
          · simp only [if_pos hq]
            exact Or.inr ⟨DEFAULT_MAX_RETRIES, rfl, by norm_num [DEFAULT_MAX_RETRIES]⟩
          · simp only [if_neg hq]
            exact Or.inr ⟨q, rfl, not_lt.mp hq⟩
        | inf => exact Or.inl rfl
        | negInf => exact Or.inr ⟨DEFAULT_MAX_RETRIES, rfl, by norm_num [DEFAULT_MAX_RETRIES]⟩

/-- C8 (counterexample): with `GITHUB_MAX_RETRIES` set to the empty string
and `GITHUB_RETRY_LIMIT` set to `"3"`, the claim's first-non-empty reading
(`specMaxRetries`) yields 3, but the code's `??` chain picks the empty
string, so `getMaxRetries` falls back to the default 5; and with the setting
`"Infinity"` the effective bound is unbounded (`Number("Infinity")` passes
every fallback check), refuting the claim's "never unbounded". -/
theorem getMaxRetries_first_nonempty_counterexample :
    specMaxRetries envEmptyFirstRetrySetting = JsNum.finite 3 ∧
    getMaxRetries envEmptyFirstRetrySetting = JsNum.finite 5 ∧ (3 : ℚ) ≠ 5 ∧
    getMaxRetries envRetryInfinity = JsNum.inf := by
  refine ⟨by decide, by decide, by norm_num, by decide⟩

/-- C8 (amended): the effective `maxAttempts` is determined from
`GITHUB_MAX_RETRIES`, `GITHUB_RETRY_LIMIT`, `MAX_RETRIES` with the first
*defined* one winning (even if empty); when every setting is absent, or the
winning setting is non-numeric (`NaN`), or its value is a non-positive
finite number or negative infinity, the effective value is the default 5; a
defined, non-empty, numeric winner with finite value at least 1 is used
as-is, and a winner converting to `Infinity` makes the bound unbounded; the
effective value is never 0 and never below 1 (but, contrary to the claim, it
can be unbounded). -/
theorem getMaxRetries_first_defined_with_default :
    (∀ env : Env, env.GITHUB_MAX_RETRIES = none → env.GITHUB_RETRY_LIMIT = none →
      env.MAX_RETRIES = none → getMaxRetries env = JsNum.finite DEFAULT_MAX_RETRIES) ∧
    (∀ env : Env, ∀ s, firstDefinedRetrySetting env = some s → jsNumber s = none →
      getMaxRetries env = JsNum.finite DEFAULT_MAX_RETRIES) ∧
    (∀ env : Env, ∀ s, ∀ q : ℚ, firstDefinedRetrySetting env = some s →
      jsNumber s = some (JsNum.finite q) → q ≤ 0 →
      getMaxRetries env = JsNum.finite DEFAULT_MAX_RETRIES) ∧
    (∀ env : Env, ∀ s, firstDefinedRetrySetting env = some s →
      jsNumber s = some JsNum.negInf →
      getMaxRetries env = JsNum.finite DEFAULT_MAX_RETRIES) ∧
    (∀ env : Env, ∀ s, ∀ q : ℚ, firstDefinedRetrySetting env = some s → s ≠ "" →
      jsNumber s = some (JsNum.finite q) → 1 ≤ q → getMaxRetries env = JsNum.finite q) ∧
    (∀ env : Env, ∀ s, firstDefinedRetrySetting env = some s → s ≠ "" →
      jsNumber s = some JsNum.inf → getMaxRetries env = JsNum.inf) ∧
    (∀ env : Env, getMaxRetries env = JsNum.inf ∨
      ∃ q, getMaxRetries env = JsNum.finite q ∧ 1 ≤ q) := by
  refine ⟨?_, ?_, ?_, ?_, ?_, ?_, one_le_getMaxRetries⟩
  · intro env h1 h2 h3
    simp [getMaxRetries, firstDefinedRetrySetting, h1, h2, h3, Option.orElse]
  · intro env s hs hn
    have hse : s ≠ "" := by
      intro he
      subst he
      rw [show jsNumber "" = some (JsNum.finite 0) from rfl] at hn
      cases hn
    simp [getMaxRetries, hs, hse, hn]
  · intro env s q hs hn hq
    by_cases hse : s = ""
    · simp [getMaxRetries, hs, hse]
    · have hlt : q < 1 := lt_of_le_of_lt hq zero_lt_one
      simp [getMaxRetries, hs, hse, hn, hlt]
  · intro env s hs hn
    by_cases hse : s = ""
    · simp [getMaxRetries, hs, hse]
    · simp [getMaxRetries, hs, hse, hn]
  · intro env s q hs hse hn hq
    have hlt : ¬ q < 1 := not_lt.mpr hq
    simp [getMaxRetries, hs, hse, hn, hlt]
  · intro env s hs hse hn
    simp [getMaxRetries, hs, hse, hn]

/-- Witness for C8: with no settings the bound is the default, with
`GITHUB_MAX_RETRIES="7"` it is 7, and with `GITHUB_MAX_RETRIES="Infinity"`
it is unbounded. -/
theorem getMaxRetries_first_defined_with_default_witness :
    getMaxRetries envMissingConfig = JsNum.finite DEFAULT_MAX_RETRIES ∧
    getMaxRetries envRetrySeven = JsNum.finite 7 ∧
    getMaxRetries envRetryInfinity = JsNum.inf :=
  ⟨getMaxRetries_first_defined_with_default.1 envMissingConfig rfl rfl rfl,
   getMaxRetries_first_defined_with_default.2.2.2.2.1 envRetrySeven "7" 7 rfl
     (by decide) (by decide) (by norm_num),
   getMaxRetries_first_defined_with_default.2.2.2.2.2.1 envRetryInfinity "Infinity" rfl
     (by decide) (by decide)⟩

/-- A successful GET response whose decoded payload is the JSON object text
(not array-of-items data). -/
def respObjPayload : FetchResp := { status := 200, content := "\x7b\x7d", sha := "abc" }

/-- A successful GET response whose decoded payload is not valid JSON. -/
def respBadJson : FetchResp := { status := 200, content := "\x7b", sha := "abc" }

/-- C7 (counterexample): the decoded payload `"\x7b\x7d"` (an empty JSON
object) is not valid serialized Collection data in the spec's sense, yet
`fetchReviewsFromGitHub` does not fail: `JSON.parse` succeeds and the
unvalidated value is returned as the collection (the `as Review[]` cast
checks nothing). -/
theorem fetch_wrong_shape_counterexample :
    specValidCollectionData "\x7b\x7d" = false ∧
    fetchReviewsFromGitHub envValid respObjPayload = .ok (Json.obj [], some "abc") :=
  ⟨by decide, rfl⟩

/-- C7 (amended): if `fetch()` receives a successful store response whose
decoded payload is nonempty after trimming and is not valid JSON, it fails
with a `StoreError` (the data-corruption diagnostic); a payload that is valid
JSON is returned without any shape validation. -/
theorem fetch_invalid_json_store_error :
    ∀ (env : Env) (cfg : GhConfig) (resp : FetchResp), getConfig env = .ok cfg →
    respOk resp.status = true → jsTrim resp.content ≠ "" →
    jsonParse (jsTrim resp.content) = none →
    fetchReviewsFromGitHub env resp =
      .error (.otherError "reviews.json in GitHub repository contains invalid JSON") := by
  intro env cfg resp hcfg hok htrim hparse
  have h404 : ¬ resp.status = 404 := by
    have := hok
    unfold respOk at this
    simp only [Bool.and_eq_true, decide_eq_true_eq] at this
    omega
  simp [fetchReviewsFromGitHub, hcfg, h404, hok, htrim, hparse]

/-- Witness for C7 (amended): a 200 response whose decoded content is the
single character `\x7b` is rejected as invalid JSON. -/
theorem fetch_invalid_json_store_error_witness :
    fetchReviewsFromGitHub envValid respBadJson =
      .error (.otherError "reviews.json in GitHub repository contains invalid JSON") :=
  fetch_invalid_json_store_error envValid cfgValid respBadJson rfl rfl
    (by decide) rfl

/-- A not-found GET response. -/
def respNotFound : FetchResp := { status := 404 }

/-- C5: a fetch against a non-existent remote object (404) succeeds with the
empty collection and no version token; and a conditioned write with no token
against the empty store is accepted, installing the collection under a fresh
token (the first-write case, store semantics modelled from the spec). -/
theorem fetch_missing_document_baseline :
    ∀ (env : Env) (cfg : GhConfig) (resp : FetchResp), getConfig env = .ok cfg →
    resp.status = 404 →
    fetchReviewsFromGitHub env resp = .ok (Json.arr [], none) ∧
    ∀ (next : List Review) (c : Nat),
      storeWrite (Store.mk none c) next none = .accepted (Store.mk (some (next, c)) (c + 1)) := by
  intro env cfg resp hcfg h404
  refine ⟨?_, fun next c => rfl⟩
  simp [fetchReviewsFromGitHub, hcfg, h404]

/-- Witness for C5: the 404 response against the valid configuration, and a
first write of the empty collection. -/
theorem fetch_missing_document_baseline_witness :
    fetchReviewsFromGitHub envValid respNotFound = .ok (Json.arr [], none) ∧
    storeWrite emptyStore [] none = .accepted (Store.mk (some ([], 0)) 1) :=
  ⟨(fetch_missing_document_baseline envValid cfgValid respNotFound rfl rfl).1,
   (fetch_missing_document_baseline envValid cfgValid respNotFound rfl rfl).2 [] 0⟩

/-- A conflicting PUT response. -/
def respConflict : PutResp := { status := 409 }

/-- A server-error PUT response. -/
def respServerError : PutResp := { status := 500, bodyText := "boom" }

/-- An engine environment whose writes always fail with a non-conflict store
error. -/
def eenvBadWrite : EngineEnv :=
  { fetchAt := fun _ => .ok ([], none)
    writeAt := fun _ _ _ => .failed (.otherError "boom") }

/-- A mutator returning its input and a unit-like result. -/
def idMutator : List Review → List Review × Nat := fun c => (c, 0)

/-- C4: with a valid configuration, a write fails with a `ConflictError` iff
the store responds 409; any other non-success response fails with a
`StoreError` (a non-conflict error); and in the retry loop a write failure
that is not a conflict is propagated immediately — the invocation ends with
that error after the current attempt, with no further fetch or write. -/
theorem write_conflict_iff_409 :
    ∀ (env : Env) (cfg : GhConfig), getConfig env = .ok cfg →
    (∀ (reviews : List Review) (sha : Option String) (resp : PutResp),
      (∃ m, persistReviewsToGitHub env reviews sha resp = .error (.conflictError m)) ↔
        resp.status = 409) ∧
    (∀ (reviews : List Review) (sha : Option String) (resp : PutResp),
      resp.status ≠ 409 → respOk resp.status = false →
      ∃ m, persistReviewsToGitHub env reviews sha resp = .error (.otherError m)) ∧
    (∀ (T : Type) (mutator : List Review → List Review × T) (eenv : EngineEnv)
       (retries : ℚ) (attempt : Nat) (lastErr : Option GhError)
       (c : List Review) (s : Option String) (e : GhError),
      (attempt : ℚ) < retries →
      eenv.fetchAt (attempt + 1) = .ok (c, s) →
      eenv.writeAt (attempt + 1) (mutator c).1 s = .failed e →
      e.isConflict = false →
      mutateGo mutator eenv retries attempt lastErr =
        (.error e, [.fetched c s, .wrote (mutator c).1 s (.failed e)])) := by
  intro env cfg hcfg
  refine ⟨?_, ?_, ?_⟩
  · intro reviews sha resp
    constructor
    · rintro ⟨m, hm⟩
      by_contra h409
      by_cases hok : respOk resp.status
      · simp [persistReviewsToGitHub, hcfg, h409, hok] at hm
      · simp only [persistReviewsToGitHub, hcfg, if_neg h409] at hm
        rw [if_pos (by simp [hok])] at hm
        simp at hm
    · intro h409
      exact ⟨"GitHub file changed during update", by simp [persistReviewsToGitHub, hcfg, h409]⟩
  · intro reviews sha resp h409 hok
    refine ⟨"Failed to persist reviews to GitHub: " ++ toString resp.status ++ " " ++ resp.bodyText, ?_⟩
    simp [persistReviewsToGitHub, hcfg, h409, hok]
  · intro T mutator eenv retries attempt lastErr c s e hlt hfetch hwrite hconf
    rw [mutateGo.eq_def]
    rw [dif_pos hlt, hfetch]
    simp only [hwrite]
    rw [dif_neg (by simp [hconf])]

/-- Witness for C4: a 409 PUT response yields the conflict error, a 500 PUT
response yields a non-conflict store error, and an invocation whose write
fails with a non-conflict error ends immediately with that error. -/
theorem write_conflict_iff_409_witness :
    (∃ m, persistReviewsToGitHub envValid [] none respConflict = .error (.conflictError m)) ∧
    (∃ m, persistReviewsToGitHub envValid [] none respServerError = .error (.otherError m)) ∧
    mutateGo idMutator eenvBadWrite 5 0 none =
      (.error (.otherError "boom"), [.fetched [] none, .wrote [] none (.failed (.otherError "boom"))]) := by
  obtain ⟨h1, h2, h3⟩ := write_conflict_iff_409 envValid cfgValid rfl
  refine ⟨(h1 [] none respConflict).mpr rfl, h2 [] none respServerError (by decide) (by decide), ?_⟩
  exact h3 Nat idMutator eenvBadWrite 5 0 none [] none (.otherError "boom")
    (by norm_num) rfl rfl rfl

/-- Helper: with any of the three required settings absent, `getConfig`
fails with a `GitHubConfigError`. -/
theorem getConfig_missing_fails (env : Env)
    (h : env.GITHUB_TOKEN = none ∨ env.GITHUB_OWNER = none ∨ env.GITHUB_REPO = none) :
    ∃ m, getConfig env = .error (.configError m) := by
  by_cases ht : strFalsy env.GITHUB_TOKEN
  · exact ⟨"Missing GITHUB_TOKEN environment variable", by simp [getConfig, ht]⟩
  · by_cases ho : strFalsy env.GITHUB_OWNER
    · exact ⟨"Missing GITHUB_OWNER environment variable", by simp [getConfig, ht, ho]⟩
    · by_cases hr : strFalsy env.GITHUB_REPO
      · exact ⟨"Missing GITHUB_REPO environment variable", by simp [getConfig, ht, ho, hr]⟩
      · exfalso
        rcases h with h | h | h
        · exact ht (by simp [strFalsy, h])
        · exact ho (by simp [strFalsy, h])
        · exact hr (by simp [strFalsy, h])

/-- C6: when the credential, owner or repository setting is absent, `fetch`
and `write` fail with the same `ConfigError` for *every* possible HTTP
response (so the failure precedes and is independent of any network
exchange), and an engine invocation run at *any* positive attempt bound
against remote operations that raise that `ConfigError` fails with it
immediately, its trace showing the single failed fetch and no write; the
configured bound is positive whenever it is finite (and an unbounded
configured bound also enters the first iteration, whose failing fetch does
not depend on the bound). -/
theorem config_error_before_any_network :
    ∀ env : Env,
    env.GITHUB_TOKEN = none ∨ env.GITHUB_OWNER = none ∨ env.GITHUB_REPO = none →
    ∃ m,
      (∀ resp, fetchReviewsFromGitHub env resp = .error (.configError m)) ∧
      (∀ (reviews : List Review) (sha : Option String) (resp : PutResp),
        persistReviewsToGitHub env reviews sha resp = .error (.configError m)) ∧
      (∀ (T : Type) (mutator : List Review → List Review × T) (eenv : EngineEnv)
         (retries : ℚ), 0 < retries →
        (∀ n, eenv.fetchAt n = .error (.configError m)) →
        mutateGo mutator eenv retries 0 none =
          (.error (.configError m), [.fetchFailed (.configError m)])) ∧
      (∀ q : ℚ, getMaxRetries env = JsNum.finite q → 0 < q) := by
  intro env h
  obtain ⟨m, hm⟩ := getConfig_missing_fails env h
  refine ⟨m, ?_, ?_, ?_, ?_⟩
  · intro resp
    simp [fetchReviewsFromGitHub, hm]
  · intro reviews sha resp
    simp [persistReviewsToGitHub, hm]
  · intro T mutator eenv retries hpos hF
    have hpos0 : ((0 : Nat) : ℚ) < retries := by
      push_cast
      linarith
    rw [mutateGo.eq_def, dif_pos hpos0, hF 1]
  · intro q hq
    rcases one_le_getMaxRetries env with hi | ⟨q', hq', hle⟩
    · rw [hq] at hi
      cases hi
    · rw [hq] at hq'
      injection hq' with hqq
      subst hqq
      linarith

/-- Witness for C6: with every setting absent, the fetch fails with a
`ConfigError` whatever the response. -/
theorem config_error_before_any_network_witness :
    ∃ m, ∀ resp, fetchReviewsFromGitHub envMissingConfig resp = .error (.configError m) := by
  obtain ⟨m, h1, _h2, _h3⟩ := config_error_before_any_network envMissingConfig (Or.inl rfl)
  exact ⟨m, h1⟩

/-- Traces in which every write is the mutator's output on the collection
fetched in the same attempt, under the version token of that same fetch:
the trace alternates fetch/write pairs linked in exactly this way, possibly
ending early at a failed fetch. -/
inductive DerivedTrace {T : Type} (mutator : List Review → List Review × T) :
    List EngineEvent → Prop where
  | nil : DerivedTrace mutator []
  | fetchFail (e : GhError) : DerivedTrace mutator [.fetchFailed e]
  | step (c : List Review) (s : Option String) (out : WriteOutcome) (rest : List EngineEvent) :
      DerivedTrace mutator rest →
      DerivedTrace mutator (.fetched c s :: .wrote (mutator c).1 s out :: rest)

/-- Helper for C1, generalized over the loop state. -/
theorem mutateGo_derivedTrace {T : Type} (mutator : List Review → List Review × T)
    (env : EngineEnv) (retries : ℚ) :
    ∀ (k attempt : Nat) (lastError : Option GhError), ⌈retries⌉.toNat - attempt = k →
      DerivedTrace mutator (mutateGo mutator env retries attempt lastError).2 := by
  intro k
  induction k using Nat.strong_induction_on with
  | _ k ih =>
    intro attempt lastError hk
    rw [mutateGo.eq_def]
    split
    · split
      · exact DerivedTrace.fetchFail _
      · split
        · exact DerivedTrace.step _ _ _ [] DerivedTrace.nil
        · split
          · refine DerivedTrace.step _ _ _ _
              (ih (⌈retries⌉.toNat - (attempt + 1)) ?_ (attempt + 1) _ rfl)
            rename_i hc
            have hz : ((attempt : ℤ) + 1) < ⌈retries⌉ := by
              rw [Int.lt_ceil]
              push_cast
              exact_mod_cast hc.2
            omega
          · exact DerivedTrace.step _ _ _ [] DerivedTrace.nil
    · exact DerivedTrace.nil

/-- C1: in every `mutateReviewsWithRetry` invocation, against any remote
behaviour and any attempt bound, each write the engine issues carries the
collection produced by the transform from the collection fetched in that same
attempt — in particular, after a conflict the next attempt's transform is
applied to a freshly fetched collection, never to the stale pre-write
snapshot — and the version token of each write is the one of that same
attempt's fetch. -/
theorem mutate_writes_derived_from_same_attempt_read :
    ∀ (T : Type) (mutator : List Review → List Review × T) (env : EngineEnv) (retries : ℚ),
    DerivedTrace mutator (mutateReviewsWithRetry mutator env retries).2 := by
  intro T mutator env retries
  exact mutateGo_derivedTrace mutator env retries _ 0 none rfl

/-- Helper for C2: the number of read/write cycles of a run is bounded by the
remaining attempts. -/
theorem mutateGo_attemptCount_le {T : Type} (mutator : List Review → List Review × T)
    (env : EngineEnv) (retries : ℚ) :
    ∀ (k attempt : Nat) (lastError : Option GhError), ⌈retries⌉.toNat - attempt = k →
      attemptCount (mutateGo mutator env retries attempt lastError).2 ≤ k := by
  intro k
  induction k using Nat.strong_induction_on with
  | _ k ih =>
    intro attempt lastError hk
    rw [mutateGo.eq_def]
    split
    · rename_i hlt
      have hm : attempt < ⌈retries⌉.toNat := by
        have hz : (attempt : ℤ) < ⌈retries⌉ := by
          rw [Int.lt_ceil]
          exact_mod_cast hlt
        omega
      split
      · simp only [attemptCount, List.filter, isAttemptStart, List.length_cons,
          List.length_nil]
        omega
      · split
        · simp only [attemptCount, List.filter, isAttemptStart, List.length_cons,
            List.length_nil]
          omega
        · split
          · rename_i e heqw hc
            have hm2 : attempt + 1 < ⌈retries⌉.toNat := by
              have hz : ((attempt : ℤ) + 1) < ⌈retries⌉ := by
                rw [Int.lt_ceil]
                push_cast
                exact_mod_cast hc.2
              omega
            have hrec := ih (⌈retries⌉.toNat - (attempt + 1)) (by omega) (attempt + 1)
              (some e) rfl
            simp only [attemptCount, List.filter, isAttemptStart, List.length_cons] at hrec ⊢
            omega
          · simp only [attemptCount, List.filter, isAttemptStart, List.length_cons,
              List.length_nil]
            omega
    · simp [attemptCount]

/-- Helper for C2: when every fetch succeeds and every write conflicts, the
run consumes every remaining attempt and surfaces the conflict error. -/
theorem mutateGo_all_conflict {T : Type} (mutator : List Review → List Review × T)
    (env : EngineEnv) (cm : String) (retries : ℚ)
    (hf : ∀ n, ∃ p, env.fetchAt n = .ok p)
    (hw : ∀ n c s, env.writeAt n c s = .failed (.conflictError cm)) :
    ∀ (k attempt : Nat) (lastError : Option GhError), ⌈retries⌉.toNat - attempt = k →
      (attempt : ℚ) < retries →
      (mutateGo mutator env retries attempt lastError).1 = .error (.conflictError cm) ∧
      attemptCount (mutateGo mutator env retries attempt lastError).2 =
        ⌈retries⌉.toNat - attempt := by
  intro k
  induction k using Nat.strong_induction_on with
  | _ k ih =>
    intro attempt lastError hk hlt
    have hm : attempt < ⌈retries⌉.toNat := by
      have hz : (attempt : ℤ) < ⌈retries⌉ := by
        rw [Int.lt_ceil]
        exact_mod_cast hlt
      omega
    obtain ⟨⟨c, s⟩, hfa⟩ := hf (attempt + 1)
    rw [mutateGo.eq_def, dif_pos hlt, hfa]
    simp only [hw, GhError.isConflict, true_and]
    by_cases hlt2 : ((attempt + 1 : Nat) : ℚ) < retries
    · rw [dif_pos hlt2]
      have hm2 : attempt + 1 < ⌈retries⌉.toNat := by
        have hz : ((attempt : ℤ) + 1) < ⌈retries⌉ := by
          rw [Int.lt_ceil]
          push_cast
          exact_mod_cast hlt2
        omega
      obtain ⟨ih1, ih2⟩ := ih (⌈retries⌉.toNat - (attempt + 1)) (by omega) (attempt + 1)
        (some (.conflictError cm)) rfl hlt2
      refine ⟨ih1, ?_⟩
      simp only [attemptCount, List.filter, isAttemptStart, List.length_cons] at ih2 ⊢
      omega
    · rw [dif_neg hlt2]
      refine ⟨rfl, ?_⟩
      have hz2 : ⌈retries⌉ ≤ (attempt : ℤ) + 1 := by
        rw [Int.ceil_le]
        push_cast
        exact_mod_cast not_lt.mp hlt2
      simp only [attemptCount, List.filter, isAttemptStart, List.length_cons, List.length_nil]
      omega

/-- C2: for every attempt bound `k`, a `mutateReviewsWithRetry` invocation
performs at most `k` read/write cycles; and when `k` is positive, every fetch
succeeds and every write attempt fails with a `ConflictError`, the invocation
performs exactly `k` cycles and propagates that `ConflictError` (neither
swallowed nor retried further). -/
theorem mutate_bounded_attempts_conflict_surfaced :
    ∀ (T : Type) (mutator : List Review → List Review × T) (env : EngineEnv)
      (k : Nat) (cm : String),
    attemptCount (mutateReviewsWithRetry mutator env (k : ℚ)).2 ≤ k ∧
    (0 < k →
      (∀ n, ∃ p, env.fetchAt n = .ok p) →
      (∀ n c s, env.writeAt n c s = .failed (.conflictError cm)) →
      (mutateReviewsWithRetry mutator env (k : ℚ)).1 = .error (.conflictError cm) ∧
      attemptCount (mutateReviewsWithRetry mutator env (k : ℚ)).2 = k) := by
  intro T mutator env k cm
  have hceil : ⌈(k : ℚ)⌉.toNat = k := by
    rw [Int.ceil_natCast]
    exact Int.toNat_natCast k
  constructor
  · have h := mutateGo_attemptCount_le mutator env (k : ℚ) (⌈(k : ℚ)⌉.toNat - 0) 0 none rfl
    rw [mutateReviewsWithRetry]
    calc attemptCount (mutateGo mutator env (k : ℚ) 0 none).2 ≤ ⌈(k : ℚ)⌉.toNat - 0 := h
      _ = k := by omega
  · intro hk hf hw
    have h := mutateGo_all_conflict mutator env cm (k : ℚ) hf hw (⌈(k : ℚ)⌉.toNat - 0) 0 none
      rfl (by exact_mod_cast hk)
    rw [mutateReviewsWithRetry]
    exact ⟨h.1, by rw [h.2]; omega⟩

/-- An engine environment whose writes always conflict. -/
def eenvAllConflict : EngineEnv :=
  { fetchAt := fun _ => .ok ([], none)
    writeAt := fun _ _ _ => .failed (.conflictError "boom") }

/-- Witness for C2: with `maxAttempts = 2` and every write conflicting, the
invocation fails with the conflict error after exactly 2 cycles. -/
theorem mutate_bounded_attempts_conflict_surfaced_witness :
    (mutateReviewsWithRetry idMutator eenvAllConflict ((2 : Nat) : ℚ)).1 =
      .error (.conflictError "boom") ∧
    attemptCount (mutateReviewsWithRetry idMutator eenvAllConflict ((2 : Nat) : ℚ)).2 = 2 :=
  (mutate_bounded_attempts_conflict_surfaced Nat idMutator eenvAllConflict 2 "boom").2
    (by norm_num) (fun _ => ⟨([], none), rfl⟩) (fun _ _ _ => rfl)

/-- C10: a `mutateReviewsWithRetry` invocation whose `retries` argument is
not positive never executes the loop body: no fetch or write occurs (the
trace is empty), the transform is never consulted (the result is the same for
every mutator and every environment), and the call fails with the generic
exhaustion error rather than any taxonomy error. -/
theorem mutate_nonpositive_retries :
    ∀ (T : Type) (mutator : List Review → List Review × T) (env : EngineEnv)
      (retries : ℚ), retries ≤ 0 →
    mutateReviewsWithRetry mutator env retries =
      (.error (.otherError "Exceeded retry attempts when updating reviews"), []) := by
  intro T mutator env retries hle
  have hn : ¬ ((0 : Nat) : ℚ) < retries := by
    push_cast
    linarith
  rw [mutateReviewsWithRetry, mutateGo.eq_def, dif_neg hn]
  rfl

/-- Witness for C10: a zero-retries invocation fails with the exhaustion
error and an empty trace. -/
theorem mutate_nonpositive_retries_witness :
    mutateReviewsWithRetry idMutator eenvBadWrite 0 =
      (.error (.otherError "Exceeded retry attempts when updating reviews"), []) :=
  mutate_nonpositive_retries Nat idMutator eenvBadWrite 0 le_rfl

/-- Applying the transforms of an extended acceptance log. -/
theorem applyLog_append {T : Type} (t : Nat → List Review → List Review × T)
    (l : List Nat) (i : Nat) :
    applyLog t (l ++ [i]) = (t i (applyLog t l)).1 := by
  simp [applyLog, List.foldl_append]

/-- Reading back the point just updated. -/
theorem updateProc_same {T : Type} (f : Nat → PState T) (i : Nat) (v : PState T) :
    updateProc f i v i = v := by
  simp [updateProc]

/-- Reading back any other point. -/
theorem updateProc_other {T : Type} (f : Nat → PState T) (i : Nat) (v : PState T)
    (j : Nat) (h : j ≠ i) : updateProc f i v j = f j := by
  simp [updateProc, h]

/-- The execution invariant behind C3: (1) the persisted collection is the
serial application of the transforms whose writes were accepted, in
acceptance order; (2) stored version tokens are below the freshness counter;
(3) a process between fetch and write holds exactly the transform's output on
what it read, and its token can only match an unchanged store; (4) the
acceptance log has no duplicates; (5) a process is in the log exactly when
its invocation has completed successfully. -/
def ExecInv {T : Type} (transforms : Nat → List Review → List Review × T)
    (gs : GState T) : Prop :=
  storeContent gs.store = applyLog transforms gs.accepted ∧
  (∀ c v, gs.store.doc = some (c, v) → v < gs.store.counter) ∧
  (∀ i attempt next result tok, gs.procs i = .pending attempt next result tok →
    (tok = none → gs.store.doc = none → next = (transforms i []).1) ∧
    (∀ v, tok = some v → v < gs.store.counter ∧
      ∀ c, gs.store.doc = some (c, v) → next = (transforms i c).1)) ∧
  gs.accepted.Nodup ∧
  (∀ i, i ∈ gs.accepted ↔ ∃ r, gs.procs i = .done r)

/-- The invariant holds initially. -/
theorem execInv_init {T : Type} (transforms : Nat → List Review → List Review × T) :
    ExecInv transforms (initGState T) := by
  refine ⟨rfl, ?_, ?_, List.nodup_nil, ?_⟩
  · intro c v h
    simp [initGState, emptyStore] at h
  · intro i attempt next result tok h
    simp [initGState] at h
  · intro i
    constructor
    · intro h
      simp [initGState] at h
    · rintro ⟨r, h⟩
      simp [initGState] at h

/-- Replacing a not-yet-successful process state by another state that is
neither `pending` nor `done` preserves the invariant (covers attempt
exhaustion and the two conflict outcomes). -/
theorem execInv_update_inert {T : Type} (transforms : Nat → List Review → List Review × T)
    (gs : GState T) (i : Nat) (v : PState T)
    (hold : ∀ r, gs.procs i ≠ .done r)
    (hvp : ∀ a n r tk, v ≠ .pending a n r tk)
    (hvd : ∀ r, v ≠ .done r)
    (hinv : ExecInv transforms gs) :
    ExecInv transforms { gs with procs := updateProc gs.procs i v } := by
  obtain ⟨h1, h2, h3, h4, h5⟩ := hinv
  refine ⟨h1, h2, ?_, h4, ?_⟩
  · intro j a n r tk hj
    by_cases hji : j = i
    · subst hji
      simp only [updateProc_same] at hj
      exact absurd hj (hvp a n r tk)
    · simp only [updateProc_other _ _ _ _ hji] at hj
      exact h3 j a n r tk hj
  · intro j
    by_cases hji : j = i
    · subst hji
      simp only [updateProc_same]
      constructor
      · intro hmem
        obtain ⟨r, hr⟩ := (h5 j).mp hmem
        exact absurd hr (hold r)
      · rintro ⟨r, hr⟩
        exact absurd hr (hvd r)
    · simp only [updateProc_other _ _ _ _ hji]
      exact h5 j

/-- The fetch-and-transform step preserves the invariant: the new `pending`
state records the transform's output on exactly what was read, under the
token that was read. -/
theorem execInv_fetch_step {T : Type} (transforms : Nat → List Review → List Review × T)
    (gs : GState T) (i : Nat) (attempt : Nat)
    (hold : ∀ r, gs.procs i ≠ .done r)
    (hinv : ExecInv transforms gs) :
    ExecInv transforms { gs with procs := updateProc gs.procs i (PState.pending (attempt + 1) (transforms i (storeFetch gs.store).1).1 (transforms i (storeFetch gs.store).1).2 (storeFetch gs.store).2) } := by
  obtain ⟨h1, h2, h3, h4, h5⟩ := hinv
  refine ⟨h1, h2, ?_, h4, ?_⟩
  · intro j a n r tk hj
    by_cases hji : j = i
    · subst hji
      simp only [updateProc_same] at hj
      injection hj with h_a h_n h_r h_tk
      subst h_n
      subst h_tk
      cases hd : gs.store.doc with
      | none =>
        simp only [storeFetch, hd]
        constructor
        · simp
        · intro v hv
          simp at hv
      | some cv =>
        obtain ⟨c0, v0⟩ := cv
        simp only [storeFetch, hd]
        constructor
        · intro hnone
          simp at hnone
        · intro v hv
          injection hv with hvv
          subst hvv
          refine ⟨h2 c0 v0 hd, ?_⟩
          intro c hc
          injection hc with hpair
          injection hpair with hc1 _hc2
          subst hc1
          rfl
    · simp only [updateProc_other _ _ _ _ hji] at hj
      exact h3 j a n r tk hj
  · intro j
    by_cases hji : j = i
    · subst hji
      simp only [updateProc_same]
      constructor
      · intro hmem
        obtain ⟨r, hr⟩ := (h5 j).mp hmem
        exact absurd hr (hold r)
      · rintro ⟨r, hr⟩
        cases hr
    · simp only [updateProc_other _ _ _ _ hji]
      exact h5 j

/-- An accepted conditioned write preserves the invariant: by the pending
invariant the written collection is the transform of the current content, so
the new content extends the serial application by this process, under a fresh
token. -/
theorem execInv_accept_step {T : Type} (transforms : Nat → List Review → List Review × T)
    (gs : GState T) (i attempt : Nat) (next : List Review) (result : T) (tok : Option Nat)
    (hp : gs.procs i = .pending attempt next result tok)
    (hnext : next = (transforms i (storeContent gs.store)).1)
    (hinv : ExecInv transforms gs) :
    ExecInv transforms { store := ⟨some (next, gs.store.counter), gs.store.counter + 1⟩, procs := updateProc gs.procs i (.done result), accepted := gs.accepted ++ [i] } := by
  obtain ⟨h1, h2, h3, h4, h5⟩ := hinv
  have hnotmem : i ∉ gs.accepted := by
    intro hmem
    obtain ⟨r, hr⟩ := (h5 i).mp hmem
    rw [hp] at hr
    cases hr
  refine ⟨?_, ?_, ?_, ?_, ?_⟩
  · show next = applyLog transforms (gs.accepted ++ [i])
    rw [applyLog_append, ← h1]
    exact hnext
  · intro c v h
    have h' : some (next, gs.store.counter) = some (c, v) := h
    injection h' with hpair
    injection hpair with _hc hv
    show v < gs.store.counter + 1
    omega
  · intro j a n r tk hj
    by_cases hji : j = i
    · subst hji
      simp only [updateProc_same] at hj
      cases hj
    · simp only [updateProc_other _ _ _ _ hji] at hj
      obtain ⟨_p1, p2⟩ := h3 j a n r tk hj
      constructor
      · intro _htk hdoc
        have hdoc' : some (next, gs.store.counter) = (none : Option (List Review × Nat)) := hdoc
        cases hdoc'
      · intro v hv
        obtain ⟨hvlt, _himp⟩ := p2 v hv
        refine ⟨show v < gs.store.counter + 1 by omega, ?_⟩
        intro c hc
        have hc' : some (next, gs.store.counter) = some (c, v) := hc
        injection hc' with hpair
        injection hpair with _hnc hcv
        omega
  · show (gs.accepted ++ [i]).Nodup
    rw [List.nodup_append]
    refine ⟨h4, List.nodup_singleton i, ?_⟩
    intro a ha hb
    rw [List.mem_singleton] at hb
    subst hb
    exact hnotmem ha
  · intro j
    by_cases hji : j = i
    · subst hji
      simp only [updateProc_same]
      constructor
      · intro _
        exact ⟨result, rfl⟩
      · intro _
        simp
    · simp only [updateProc_other _ _ _ _ hji, List.mem_append, List.mem_singleton, hji,
        or_false]
      exact h5 j

/-- One step of any process preserves the execution invariant. -/
theorem execInv_stepProc {T : Type} (transforms : Nat → List Review → List Review × T)
    (retries : ℚ) (gs : GState T) (i : Nat)
    (hinv : ExecInv transforms gs) :
    ExecInv transforms (stepProc transforms retries gs i) := by
  cases hp : gs.procs i with
  | ready attempt lastErr =>
    have hold : ∀ r, gs.procs i ≠ .done r := by
      intro r h
      rw [hp] at h
      cases h
    by_cases hlt : (attempt : ℚ) < retries
    · simp only [stepProc, hp, if_pos hlt]
      exact execInv_fetch_step transforms gs i attempt hold hinv
    · simp only [stepProc, hp, if_neg hlt]
      exact execInv_update_inert transforms gs i _ hold
        (fun a n r tk h => PState.noConfusion h) (fun r h => PState.noConfusion h) hinv
  | pending attempt next result tok =>
    have hold : ∀ r, gs.procs i ≠ .done r := by
      intro r h
      rw [hp] at h
      cases h
    cases hd : gs.store.doc with
    | none =>
      cases tok with
      | none =>
        have hw : storeWrite gs.store next none =
            .accepted ⟨some (next, gs.store.counter), gs.store.counter + 1⟩ := by
          simp [storeWrite, hd]
        simp only [stepProc, hp, hw]
        have hnext : next = (transforms i (storeContent gs.store)).1 := by
          have h := (hinv.2.2.1 i attempt next result none hp).1 rfl hd
          simpa [storeContent, hd] using h
        exact execInv_accept_step transforms gs i attempt next result none hp hnext hinv
      | some t =>
        have hw : storeWrite gs.store next (some t) = .conflict := by
          simp [storeWrite, hd]
        simp only [stepProc, hp, hw]
        by_cases hlt : (attempt : ℚ) < retries
        · simp only [if_pos hlt]
          exact execInv_update_inert transforms gs i _ hold
            (fun a n r tk h => PState.noConfusion h) (fun r h => PState.noConfusion h) hinv
        · simp only [if_neg hlt]
          exact execInv_update_inert transforms gs i _ hold
            (fun a n r tk h => PState.noConfusion h) (fun r h => PState.noConfusion h) hinv
    | some cv =>
      obtain ⟨c0, v0⟩ := cv
      cases tok with
      | none =>
        have hw : storeWrite gs.store next none = .conflict := by
          simp [storeWrite, hd]
        simp only [stepProc, hp, hw]
        by_cases hlt : (attempt : ℚ) < retries
        · simp only [if_pos hlt]
          exact execInv_update_inert transforms gs i _ hold
            (fun a n r tk h => PState.noConfusion h) (fun r h => PState.noConfusion h) hinv
        · simp only [if_neg hlt]
          exact execInv_update_inert transforms gs i _ hold
            (fun a n r tk h => PState.noConfusion h) (fun r h => PState.noConfusion h) hinv
      | some t =>
        by_cases hteq : t = v0
        · subst hteq
          have hw : storeWrite gs.store next (some t) =
              .accepted ⟨some (next, gs.store.counter), gs.store.counter + 1⟩ := by
            simp [storeWrite, hd]
          simp only [stepProc, hp, hw]
          have hnext : next = (transforms i (storeContent gs.store)).1 := by
            have h := ((hinv.2.2.1 i attempt next result (some t) hp).2 t rfl).2 c0 hd
            simpa [storeContent, hd] using h
          exact execInv_accept_step transforms gs i attempt next result (some t) hp hnext hinv
        · have hw : storeWrite gs.store next (some t) = .conflict := by
            simp [storeWrite, hd, hteq]
          simp only [stepProc, hp, hw]
          by_cases hlt : (attempt : ℚ) < retries
          · simp only [if_pos hlt]
            exact execInv_update_inert transforms gs i _ hold
              (fun a n r tk h => PState.noConfusion h) (fun r h => PState.noConfusion h) hinv
          · simp only [if_neg hlt]
            exact execInv_update_inert transforms gs i _ hold
              (fun a n r tk h => PState.noConfusion h) (fun r h => PState.noConfusion h) hinv
  | done r =>
    simp only [stepProc, hp]
    exact hinv
  | failed e =>
    simp only [stepProc, hp]
    exact hinv

/-- The invariant holds after any schedule. -/
theorem execInv_execSched {T : Type} (transforms : Nat → List Review → List Review × T)
    (retries : ℚ) :
    ∀ (sched : List Nat) (gs : GState T), ExecInv transforms gs →
      ExecInv transforms (execSched transforms retries sched gs) := by
  intro sched
  induction sched with
  | nil =>
    intro gs h
    exact h
  | cons i rest ih =>
    intro gs h
    exact ih (stepProc transforms retries gs i) (execInv_stepProc transforms retries gs i h)

/-- C3: for every family of transforms, every attempt bound and every
interleaving of the per-invocation steps against an initially empty store,
the persisted collection always equals the serial application, in the store's
acceptance order, of exactly the transforms whose writes the store accepted;
each invocation's write is accepted at most once, and an invocation's
transform is in the acceptance order precisely when that invocation completed
successfully — no accepted update is lost (store compare-and-swap semantics
modelled from the spec). -/
theorem store_serializable :
    ∀ (T : Type) (transforms : Nat → List Review → List Review × T) (retries : ℚ)
      (sched : List Nat),
    storeContent (execSched transforms retries sched (initGState T)).store =
      applyLog transforms (execSched transforms retries sched (initGState T)).accepted ∧
    (execSched transforms retries sched (initGState T)).accepted.Nodup ∧
    (∀ i, i ∈ (execSched transforms retries sched (initGState T)).accepted ↔
      ∃ r, (execSched transforms retries sched (initGState T)).procs i = .done r) := by
  intro T transforms retries sched
  have h := execInv_execSched transforms retries sched (initGState T) (execInv_init transforms)
  exact ⟨h.1, h.2.2.2.1, h.2.2.2.2⟩

/-- C9: starting from the empty store, one invocation running the `addReview`
transform for text `"hello"` with `maxAttempts = 5`, an absent avatar and an
absent-or-zero rating completes in one fetch/write cycle: it returns the new
item with the trimmed text, the placeholder avatar and rating 5, and the
persisted collection is exactly that one item (`idv`/`ts` stand for the
nondeterministic id and timestamp). -/
theorem append_hello_scenario :
    ∀ (idv ts : String) (stars : Option ℚ), stars = none ∨ stars = some 0 →
    (execSched (fun _ => addReviewMutator idv ts "hello" none stars) 5 [0, 0]
        (initGState Review)).procs 0 =
      .done { id := idv, text := "hello", createdAt := ts, avatar := placeholderAvatar,
              stars := 5 } ∧
    storeContent (execSched (fun _ => addReviewMutator idv ts "hello" none stars) 5 [0, 0]
        (initGState Review)).store =
      [{ id := idv, text := "hello", createdAt := ts, avatar := placeholderAvatar,
         stars := 5 }] := by
  intro idv ts stars h
  rcases h with h | h
  · subst h
    exact ⟨rfl, rfl⟩
  · subst h
    exact ⟨rfl, rfl⟩

/-- Witness for C9: the scenario at a concrete id and timestamp with the
rating absent. -/
theorem append_hello_scenario_witness :
    (execSched (fun _ => addReviewMutator "id1" "t1" "hello" none none) 5 [0, 0]
        (initGState Review)).procs 0 =
      .done { id := "id1", text := "hello", createdAt := "t1", avatar := placeholderAvatar,
              stars := 5 } ∧
    storeContent (execSched (fun _ => addReviewMutator "id1" "t1" "hello" none none) 5 [0, 0]
        (initGState Review)).store =
      [{ id := "id1", text := "hello", createdAt := "t1", avatar := placeholderAvatar,
         stars := 5 }] :=
  append_hello_scenario "id1" "t1" none (Or.inl rfl)
